import Mathlib

set_option maxRecDepth 40000

/-!
Verification of the OzonRevui review-ingestion pipeline.

Shallow embedding of:
- `app/services/ozon_service.py` (`OzonService.get_reviews`, payload building,
  endpoint-candidate fallback, result normalization);
- `app/services/yandex_service.py` (`YandexGPTService`: quota flag, `set_model`,
  `_call_api`, `analyze_sentiment`, `categorize_review`,
  `generate_response_drafts`, `check_api_health`);
- `app/api/routes/reviews.py` (`sync_reviews` pagination loop);
- `app/background_tasks.py` (`ReviewPoller.poll_reviews`);
- `app/services/review_service.py` is imported by the routes and the poller but
  is absent from the repository checkout; `process_new_review` is modelled from
  the spec where needed.

Network I/O is modelled by oracles: a list of per-candidate outcomes for one
logical fetch call, and an index-based oracle for successive calls in a loop.
Python exceptions are modelled with `Except String`.
-/

/-- A raw review item as received from the marketplace. All the code under
verification passes review items around opaquely except for the external id
used by the dedup gate, so an item is modelled by its external id. -/
structure RawReview where
  external_id : String
deriving Repr, DecidableEq

/-- The nested `result` object Ozon sometimes wraps the review list in.
`Option` models presence of the JSON key (`none` = key absent). -/
structure NestedResult where
  reviews? : Option (List RawReview)
  count? : Option Nat
  total? : Option Nat
deriving Repr, DecidableEq

/-- Top-level parsed response body of a review-list call.
`Option` models presence of the JSON key (`none` = key absent). -/
structure RawBody where
  reviews? : Option (List RawReview)
  result? : Option NestedResult
  total? : Option Nat
deriving Repr, DecidableEq

/-- Python truthiness of `a or b` on optional integers: a present non-zero
left operand wins, otherwise the right operand is used
(`nested.get("count") or nested.get("total")`). -/
def pyOrNat (a b : Option Nat) : Option Nat :=
  match a with
  | some c => if c ≠ 0 then some c else b
  | none => b

/-- `ozon_service.get_reviews`, 200-branch: if the top-level shape lacks a
`reviews` key but a nested `result` object has one, unwrap reviews (and a
total, when present) into the top level. -/
def normalizeBody (data : RawBody) : RawBody :=
  if data.reviews?.isNone then
    match data.result? with
    | some nested =>
      match nested.reviews? with
      | some reviews =>
        let total := pyOrNat nested.count? nested.total?
        { data with
          reviews? := some reviews
          total? := match total with
            | some t => some t
            | none => data.total? }
      | none => data
    | none => data
  else data

/-- Outcome of POSTing to one candidate endpoint: an HTTP response with a
status code and parsed body, or a transport-level exception/timeout. -/
inductive CandidateOutcome where
  | resp (status : Nat) (body : RawBody)
  | exnRaised
deriving Repr, DecidableEq

/-- The endpoint loop of `ozon_service.get_reviews` (lines 72-115), over the
ordered list of per-candidate outcomes. Returns the call result and how many
candidates were tried. Policy, per candidate, in source order:
200 parses, normalizes and returns; 404 advances; any other status below 500
returns `none` (abort); 500 and above falls through to the next candidate;
a raised exception advances; exhaustion returns `none`. -/
def getReviewsGo : List CandidateOutcome → Option RawBody × Nat
  | [] => (none, 0)
  | c :: rest =>
    match c with
    | .exnRaised =>
      let (r, n) := getReviewsGo rest
      (r, n + 1)
    | .resp status body =>
      if status = 200 then
        (some (normalizeBody body), 1)
      else if status = 404 then
        let (r, n) := getReviewsGo rest
        (r, n + 1)
      else if status < 500 then
        (none, 1)
      else
        let (r, n) := getReviewsGo rest
        (r, n + 1)

/-- A candidate outcome that the `get_reviews` loop skips past: a transport
exception, a 404, or a server error (status 500 and above). -/
def Skippable : CandidateOutcome → Prop
  | .exnRaised => True
  | .resp status _ => status = 404 ∨ 500 ≤ status

instance : DecidablePred Skippable := by
  intro c
  cases c with
  | resp status body => exact inferInstanceAs (Decidable (status = 404 ∨ 500 ≤ status))
  | exnRaised => exact inferInstanceAs (Decidable True)

/-- A candidate outcome that aborts the whole `get_reviews` call: an HTTP
status in [400,500) other than 404 (the claim's scope; the code aborts on any
non-200, non-404 status below 500). -/
def Aborting (c : CandidateOutcome) : Prop :=
  match c with
  | .exnRaised => False
  | .resp status _ => 400 ≤ status ∧ status < 500 ∧ status ≠ 404

/-- The request filter built by `get_reviews` (lines 56-63): statuses `[1]`,
plus a creation-time lower bound when `days_back > 0`. The bound is the
current time minus `days_back` days, modelled in seconds. -/
structure FilterConfig where
  statuses : List Nat
  date_from? : Option Nat
deriving Repr, DecidableEq

def buildFilter (now : Nat) (days_back : Nat) : FilterConfig :=
  { statuses := [1]
    date_from? := if days_back > 0 then some (now - days_back * 86400) else none }

/-- The limit clamp of `get_reviews` line 47: `max(20, min(limit, 100))`. -/
def clampLimit (limit : Nat) : Nat := max 20 (min limit 100)

/-- The full request payload of `get_reviews`. -/
structure FetchPayload where
  limit : Nat
  offset : Nat
  filter : FilterConfig
deriving Repr, DecidableEq

def buildPayload (now limit offset days_back : Nat) : FetchPayload :=
  { limit := clampLimit limit
    offset := offset
    filter := buildFilter now days_back }

/-- `days_back` used by `ReviewPoller.poll_reviews`: the call
`get_reviews(limit=limit, offset=offset)` leaves `days_back` at its default
of 30 (`ozon_service.py` line 33). -/
def pollDaysBack : Nat := 30

/-- Review-list extraction as done by the ingestion loops
(`background_tasks.py` lines 46-50, `reviews.py` lines 133-137): read the
top-level `reviews` key, and when that gives an empty list fall back to
`result.reviews`. -/
def extractReviews (body : RawBody) : List RawReview :=
  let reviews := body.reviews?.getD []
  if reviews.isEmpty then
    match body.result? with
    | some nested => nested.reviews?.getD []
    | none => []
  else reviews

/-- A persisted review row. The dedup gate only consults `external_id`
(spec section 3), so the stored entity is modelled by that key. -/
structure Review where
  external_id : String
deriving Repr, DecidableEq

/-- Storage lookup `findByExternalId(id)` (spec section 6). Storage is
modelled as the ordered list of inserted rows. -/
def findByExternalId (db : List Review) (eid : String) : Option Review :=
  db.find? (fun r => r.external_id == eid)

/-- Modelled from the spec: `ReviewService.process_new_review` lives in
`app/services/review_service.py`, which is imported by `reviews.py` and
`background_tasks.py` but absent from the checkout. Spec section 4.2: look up
existing storage by `external_id`; if found return false with no mutation
(the sole deduplication gate); otherwise persist a new Review in one atomic
write and return true. -/
def process_new_review (db : List Review) (raw : RawReview) : Bool × List Review :=
  match findByExternalId db raw.external_id with
  | some _ => (false, db)
  | none => (true, db ++ [{ external_id := raw.external_id }])

/-- Number of rows stored under a given external id. -/
def countByExternalId (db : List Review) (eid : String) : Nat :=
  db.countP (fun r => r.external_id == eid)

/-- Fold `process_new_review` over a batch, counting inserts
(`reviews.py` lines 145-148). -/
def processBatch (db : List Review) : List RawReview → Nat × List Review
  | [] => (0, db)
  | r :: rest =>
    let (ins, db') := process_new_review db r
    let (n, db'') := processBatch db' rest
    ((if ins then 1 else 0) + n, db'')

/-- Fold `process_new_review` over any sequence of raw payloads. -/
def processAll (db : List Review) : List RawReview → List Review
  | [] => db
  | r :: rest => processAll (process_new_review db r).2 rest

/-- Running totals of the manual-sync loop. -/
structure SyncTotals where
  fetched : Nat
  saved : Nat
deriving Repr, DecidableEq

/-- The pagination loop of `sync_reviews` (`reviews.py` lines 118-156) with
the iteration bound as fuel. `fetch i` is the outcome of the i-th
`get_reviews` call (`none` = failed fetch). Page size is the literal
`limit = 100` of the source. Stops on failed fetch, empty extracted batch,
short batch, or exhausted iterations; otherwise processes the batch,
accumulates counts and advances the offset. -/
def syncLoop (fetch : Nat → Option RawBody) :
    Nat → Nat → SyncTotals → List Review → SyncTotals × List Review
  | 0, _, totals, db => (totals, db)
  | fuel + 1, callIdx, totals, db =>
    match fetch callIdx with
    | none => (totals, db)
    | some body =>
      let reviews := extractReviews body
      if reviews.isEmpty then (totals, db)
      else
        let (ns, db') := processBatch db reviews
        let totals' : SyncTotals :=
          { fetched := totals.fetched + reviews.length
            saved := totals.saved + ns }
        if reviews.length < 100 then (totals', db')
        else syncLoop fetch fuel (callIdx + 1) totals' db'

/-- `sync_reviews` with `max_iterations = 10` (`reviews.py` line 122). -/
def sync_reviews (fetch : Nat → Option RawBody) (db : List Review) :
    SyncTotals × List Review :=
  syncLoop fetch 10 0 ⟨0, 0⟩ db

/-- Result of the scheduled poller's `while True` pagination loop
(`background_tasks.py` lines 38-67): either the loop broke out on one of its
stop conditions, or the modelling fuel ran out with the loop still going. -/
inductive PollLoopResult where
  | finished (totalProcessed : Nat)
  | outOfFuel (totalProcessed : Nat)
deriving Repr, DecidableEq

/-- The `while True` loop of `ReviewPoller.poll_reviews`, counts only
(per-review processing and its exceptions are modelled in
`poll_reviews_run`). The source has no iteration cap, so termination is
tracked by fuel: `outOfFuel` means the loop was still running after `fuel`
batches. Breaks on failed fetch, empty extracted batch, or short batch
(fewer than the literal `limit = 100` items). -/
def pollLoop (fetch : Nat → Option RawBody) : Nat → Nat → Nat → PollLoopResult
  | 0, _, total => .outOfFuel total
  | fuel + 1, callIdx, total =>
    match fetch callIdx with
    | none => .finished total
    | some body =>
      let reviews := extractReviews body
      if reviews.isEmpty then .finished total
      else
        let total' := total + reviews.length
        if reviews.length < 100 then .finished total'
        else pollLoop fetch fuel (callIdx + 1) total'

/-- Overall outcome of one `poll_reviews` cycle as seen by the scheduler. -/
inductive PollOutcome where
  | noCreds
  | completed (lastBatchLogged : Nat)
  | caught (e : String)
  | propagated (e : String)
deriving Repr, DecidableEq

/-- Process a batch when per-review processing may raise
(`for review_data in reviews: await service.process_new_review(...)`).
`process k` is the outcome of the k-th processing call in the cycle; the
returned value is the next call index. -/
def processBatchE (process : Nat → Except String Bool) :
    Nat → List RawReview → Except String Nat
  | k, [] => .ok k
  | k, _ :: rest =>
    match process k with
    | .error e => .error e
    | .ok _ => processBatchE process (k + 1) rest

/-- The body of the `try:` block of `poll_reviews` (lines 30-69), fuel-based.
`none` = still looping when fuel ran out. `some (.error e)` = an exception
raised inside the block. `some (.ok lastLen)` = the block ran to its end,
where `lastLen` is `some (length of the last batch bound to the local
variable reviews)`, or `none` when the first fetch already failed and the
variable was never bound. -/
def pollTryBody (fetch : Nat → Except String (Option RawBody))
    (process : Nat → Except String Bool) :
    Nat → Nat → Nat → Option Nat → Option (Except String (Option Nat))
  | 0, _, _, _ => none
  | fuel + 1, callIdx, k, lastLen =>
    match fetch callIdx with
    | .error e => some (.error e)
    | .ok none => some (.ok lastLen)
    | .ok (some body) =>
      let reviews := extractReviews body
      if reviews.isEmpty then some (.ok (some reviews.length))
      else
        match processBatchE process k reviews with
        | .error e => some (.error e)
        | .ok k' =>
          if reviews.length < 100 then some (.ok (some reviews.length))
          else pollTryBody fetch process fuel (callIdx + 1) k' (some reviews.length)

/-- `ReviewPoller.poll_reviews` (lines 21-74). Returns the cycle outcome and
whether the storage session was closed; `none` = the cycle diverged inside
the `try:` block. Credential failure returns before a session is opened.
The final `logger.info` dereferences the loop-local `reviews` variable, which
raises a NameError (caught by the same `except`) when the very first fetch
failed; every exception raised inside the block is caught, logged and turned
into a normal return, and the `finally:` closes the session. -/
def poll_reviews_run (credsValid : Bool)
    (fetch : Nat → Except String (Option RawBody))
    (process : Nat → Except String Bool) (fuel : Nat) :
    Option (PollOutcome × Bool) :=
  if credsValid then
    match pollTryBody fetch process fuel 0 0 none with
    | none => none
    | some (.error e) => some (.caught e, true)
    | some (.ok none) => some (.caught "NameError: reviews", true)
    | some (.ok (some len)) => some (.completed len, true)
  else
    some (.noCreds, false)

/-- Python string truthiness of `a or b`: a present non-empty left operand
wins, otherwise the right operand (`api_key or settings.yandex_api_key`,
`tone or settings.response_tone`). -/
def pyOrStr (a : Option String) (b : String) : String :=
  match a with
  | some s => if s ≠ "" then s else b
  | none => b

/-- Python substring test `pat in s`, for the non-empty literal patterns of
the keyword matchers: `splitOn` yields more than one piece exactly when the
pattern occurs. -/
def strContains (s pat : String) : Bool := (s.splitOn pat).length != 1

/-- `config.py` line 21 default. -/
def settingsYandexApiKey : String := ""

/-- `config.py` line 22 default. -/
def settingsYandexFolderId : String := ""

/-- `config.py` line 23 default: note `yandexgpt-3`. -/
def settingsYandexModel : String := "yandexgpt-3"

/-- `config.py` line 29 default. -/
def settingsResponseTone : String := "friendly"

/-- `config.py` line 30 default. -/
def settingsResponseSignature : String := "С уважением,\nКоманда маркетплейса"

/-- Python `str.strip()`: drop leading and trailing whitespace. Written over
the character list so that it evaluates inside the kernel. -/
def pyStrip (s : String) : String :=
  String.mk
    (((s.data.dropWhile Char.isWhitespace).reverse.dropWhile Char.isWhitespace).reverse)

/-- `YandexGPTService.AVAILABLE_MODELS` (`yandex_service.py` lines 16-20). -/
def AVAILABLE_MODELS : List String := ["yandexgpt", "yandexgpt-lite", "yandexgpt-pro"]

/-- The mutable fields of a `YandexGPTService` instance. -/
structure YandexState where
  api_key : String
  folder_id : String
  model : String
  quota_exceeded : Bool
deriving Repr, DecidableEq

/-- `YandexGPTService.__init__`: each credential falls back to the settings
default under Python `or`; `quota_exceeded` starts `False`. -/
def mkYandexService (api_key? folder_id? model? : Option String) : YandexState :=
  { api_key := pyOrStr api_key? settingsYandexApiKey
    folder_id := pyOrStr folder_id? settingsYandexFolderId
    model := pyOrStr model? settingsYandexModel
    quota_exceeded := false }

/-- `YandexGPTService._has_credentials`: both key and folder non-empty. -/
def has_credentials (s : YandexState) : Bool :=
  s.api_key != "" && s.folder_id != ""

/-- `YandexGPTService.set_model` (lines 83-90): reject a model outside
`AVAILABLE_MODELS` leaving the state unchanged, otherwise update it. -/
def set_model (s : YandexState) (model : String) : Bool × YandexState :=
  if !(AVAILABLE_MODELS.contains model) then (false, s)
  else (true, { s with model := model })

/-- Outcome of the one HTTP POST a `_call_api` invocation makes: a response
with status and the texts of the completion alternatives, or a raised
timeout/exception. -/
inductive ApiResp where
  | resp (status : Nat) (alternatives : List String)
  | timeoutErr
  | exnRaised
deriving Repr, DecidableEq

/-- `YandexGPTService._call_api` (lines 220-264). Returns the optional reply
text, the successor state, and whether a network request was issued. Missing
credentials return `none` without network I/O. On 200 the first
alternative's text is stripped and returned (an empty alternatives list
falls off the end of the function, i.e. `none`); a 429 sets the sticky
`quota_exceeded` flag; every other status, timeout or exception returns
`none`. The prompt and temperature only shape the outbound payload, so they
do not appear in the model beyond the prompt argument. -/
def call_api (s : YandexState) (prompt : String) (o : ApiResp) :
    Option String × YandexState × Bool :=
  if has_credentials s then
    match o with
    | .resp status alts =>
      if status = 200 then
        (match alts with
          | [] => none
          | t :: _ => some (pyStrip t), s, true)
      else if status = 429 then
        (none, { s with quota_exceeded := true }, true)
      else (none, s, true)
    | .timeoutErr => (none, s, true)
    | .exnRaised => (none, s, true)
  else (none, s, false)

/-- `SENTIMENT_PROMPT.format(review_text=...)` (template of lines 24-25). -/
def sentimentPrompt (review_text : String) : String :=
  "Проанализируй тональность отзыва и ответь ТОЛЬКО одним словом: положительная, нейтральная или отрицательная.\nОтзыв: "
    ++ review_text

/-- `CATEGORY_PROMPT.format(review_text=...)` (template of lines 27-28). -/
def categoryPrompt (review_text : String) : String :=
  "Категоризируй основную тему отзыва. Ответь ТОЛЬКО одной категорией: качество, доставка, упаковка, сервис, другое.\nОтзыв: "
    ++ review_text

/-- Sentiment keyword matching of `analyze_sentiment` (lines 274-283) on a
truthy reply: lowercase, scan the positive word list then the negative one,
default `neutral`. -/
def classifySentiment (result : String) : String :=
  let sentiment := result.toLower
  if ["положительная", "positive", "хорошо", "good"].any
      (fun w => strContains sentiment w) then "positive"
  else if ["отрицательная", "negative", "плохо", "bad"].any
      (fun w => strContains sentiment w) then "negative"
  else "neutral"

/-- `YandexGPTService.analyze_sentiment` (lines 266-283): short-circuit to
`neutral` on exceeded quota or missing credentials, otherwise one API call;
a falsy reply (failure or empty string) gives `neutral`. -/
def analyze_sentiment (s : YandexState) (review_text : String) (o : ApiResp) :
    String × YandexState × Bool :=
  if s.quota_exceeded || !(has_credentials s) then ("neutral", s, false)
  else
    let (result, s', net) := call_api s (sentimentPrompt review_text) o
    (match result with
      | some t => if t ≠ "" then classifySentiment t else "neutral"
      | none => "neutral", s', net)

/-- The category keyword dictionary of `categorize_review` (lines 295-304),
in insertion order. -/
def categoriesMap : List (String × String) :=
  [("качество", "quality"), ("quality", "quality"),
   ("доставка", "delivery"), ("delivery", "delivery"),
   ("упаковка", "packaging"), ("packaging", "packaging"),
   ("сервис", "service"), ("service", "service")]

/-- Category keyword matching of `categorize_review` on a truthy reply:
lowercase, first dictionary key contained in the reply wins, default
`other`. -/
def classifyCategory (result : String) : String :=
  let category := result.toLower
  match categoriesMap.find? (fun kv => strContains category kv.1) with
  | some kv => kv.2
  | none => "other"

/-- `YandexGPTService.categorize_review` (lines 285-309). -/
def categorize_review (s : YandexState) (review_text : String) (o : ApiResp) :
    String × YandexState × Bool :=
  if s.quota_exceeded || !(has_credentials s) then ("other", s, false)
  else
    let (result, s', net) := call_api s (categoryPrompt review_text) o
    (match result with
      | some t => if t ≠ "" then classifyCategory t else "other"
      | none => "other", s', net)

/-- The fallback draft of `generate_response_drafts` line 350. -/
def fallbackDraft (signature : String) : String :=
  "Спасибо за ваш отзыв! " ++ signature

/-- `RESPONSE_PROMPT.format(...)` (template of lines 30-42), or the custom
template when one is provided; the custom template is modelled as a function
of the same four values. -/
def draftPrompt (custom? : Option String) (review_text tone signature : String)
    (variant : Nat) : String :=
  match custom? with
  | some custom => custom ++ review_text ++ tone ++ signature ++ toString variant
  | none =>
    "Сгенерируй помощный ответ продавца на отзыв клиента для маркетплейса.\nТребования:\n- Будь вежлив и эмпатичен\n- Будь кратким (максимум 2-3 предложения)\n- Не запрашивай личную информацию\n- Не спорь и не делай оправдания\n- Тон: "
      ++ tone
      ++ "\n- Включи подпись если предоставлена\n\nОтзыв: " ++ review_text
      ++ "\nПодпись: " ++ signature
      ++ "\n\nВариант ответа #" ++ toString variant ++ ":"

/-- The `for variant in range(1, num_variants + 1)` loop of
`generate_response_drafts` (lines 327-352): one API call per variant, a
falsy result replaced by the fallback draft. `oracle variant` is the
response to the call for that variant; the state threads through so a 429
inside the loop flips the quota flag for later calls (which `_call_api`
itself does not consult). Also returns the number of network requests. -/
def draftsGo (oracle : Nat → ApiResp) (custom? : Option String)
    (review_text tone signature : String) :
    Nat → Nat → YandexState → List String × YandexState × Nat
  | _, 0, s => ([], s, 0)
  | variant, rem + 1, s =>
    let prompt := draftPrompt custom? review_text tone signature variant
    let (result, s', net) := call_api s prompt (oracle variant)
    let draft := match result with
      | some t => if t ≠ "" then t else fallbackDraft signature
      | none => fallbackDraft signature
    let (rest, s'', n) := draftsGo oracle custom? review_text tone signature
      (variant + 1) rem s'
    (draft :: rest, s'', (if net then 1 else 0) + n)

/-- `YandexGPTService.generate_response_drafts` (lines 311-352):
short-circuit to the empty list on exceeded quota or missing credentials;
otherwise default the tone and signature from settings under Python `or`
and run the per-variant loop. -/
def generate_response_drafts (s : YandexState) (review_text : String)
    (num_variants : Nat) (tone? signature? custom? : Option String)
    (oracle : Nat → ApiResp) : List String × YandexState × Nat :=
  if s.quota_exceeded || !(has_credentials s) then ([], s, 0)
  else
    let tone := pyOrStr tone? settingsResponseTone
    let signature := pyOrStr signature? settingsResponseSignature
    draftsGo oracle custom? review_text tone signature 1 num_variants s

/-- Outcome of the probe POST of `check_api_health`: a response, or one of
the exception classes the source distinguishes. -/
inductive HealthProbe where
  | resp (status : Nat)
  | connectErr
  | readTimeout
  | exnRaised
deriving Repr, DecidableEq

/-- The report dictionary of `check_api_health`; `Option` fields model keys
absent from some of the returned dictionaries. Diagnostic detail strings are
not modelled. -/
structure HealthReport where
  available : Bool
  credentials_set : Bool
  model : String
  quota_exceeded? : Option Bool
  status_code? : Option Nat
  error? : Option String
deriving Repr, DecidableEq

/-- `YandexGPTService.check_api_health` (lines 92-218). Classifies the probe
outcome into a report; returns the successor state and whether a network
request was issued. Note the source never assigns `self.quota_exceeded`
here: a 429 is only reported in the dictionary. -/
def check_api_health (s : YandexState) (o : HealthProbe) :
    HealthReport × YandexState × Bool :=
  if s.api_key = "" then
    ({ available := false, credentials_set := false, model := s.model
       quota_exceeded? := none, status_code? := none
       error? := some "Missing API key" }, s, false)
  else if s.folder_id = "" then
    ({ available := false, credentials_set := true, model := s.model
       quota_exceeded? := none, status_code? := none
       error? := some "Missing Folder ID" }, s, false)
  else
    match o with
    | .resp status =>
      if status = 200 then
        ({ available := true, credentials_set := true, model := s.model
           quota_exceeded? := some false, status_code? := some 200
           error? := none }, s, true)
      else if status = 429 then
        ({ available := false, credentials_set := true, model := s.model
           quota_exceeded? := some true, status_code? := some 429
           error? := some "Rate limit / quota exceeded (429)" }, s, true)
      else if status = 401 ∨ status = 403 then
        ({ available := false, credentials_set := true, model := s.model
           quota_exceeded? := some false, status_code? := some status
           error? := some "Authentication/authorization failed (401/403)" }, s, true)
      else if status = 404 then
        ({ available := false, credentials_set := true, model := s.model
           quota_exceeded? := some false, status_code? := some status
           error? := some "Endpoint or model not found (404)" }, s, true)
      else
        ({ available := false, credentials_set := true, model := s.model
           quota_exceeded? := some false, status_code? := some status
           error? := some "API error" }, s, true)
    | .connectErr =>
      ({ available := false, credentials_set := true, model := s.model
         quota_exceeded? := none, status_code? := none
         error? := some "Network connect error to Yandex LLM API." }, s, true)
    | .readTimeout =>
      ({ available := false, credentials_set := true, model := s.model
         quota_exceeded? := none, status_code? := none
         error? := some "Timeout while calling Yandex LLM API." }, s, true)
    | .exnRaised =>
      ({ available := false, credentials_set := true, model := s.model
         quota_exceeded? := none, status_code? := none
         error? := some "Unexpected error while checking YandexGPT." }, s, true)

/-- Whether an API response is a rate-limit signal (HTTP 429). -/
def is429 (o : ApiResp) : Bool :=
  match o with
  | .resp 429 _ => true
  | _ => false

/-- The reply text `_call_api` extracts from a given response when
credentials are present: the stripped first alternative of a 200, `none`
otherwise. -/
def apiText (o : ApiResp) : Option String :=
  match o with
  | .resp status alts =>
    if status = 200 then
      match alts with
      | [] => none
      | t :: _ => some (pyStrip t)
    else none
  | _ => none

/-- The draft `generate_response_drafts` produces for one variant whose API
call returned `o`: the reply text when truthy, else the fallback draft. -/
def draftOf (signature : String) (o : ApiResp) : String :=
  match apiText o with
  | some t => if t ≠ "" then t else fallbackDraft signature
  | none => fallbackDraft signature

/-- A service instance with credentials set and the quota flag still clear,
used to probe `check_api_health`. -/
def healthProbeState : YandexState :=
  { api_key := "key", folder_id := "folder", model := "yandexgpt", quota_exceeded := false }

/-- A batch of `n` distinct raw reviews tagged by a prefix. -/
def batchOf (tag : String) (n : Nat) : List RawReview :=
  (List.range n).map (fun i => { external_id := tag ++ toString i })

/-- A fetch sequence answering batches of 100, 100 and 37 reviews and
failing afterwards (the pagination-termination scenario of the spec). -/
def f237 : Nat → Option RawBody
  | 0 => some { reviews? := some (batchOf "a" 100), result? := none, total? := none }
  | 1 => some { reviews? := some (batchOf "b" 100), result? := none, total? := none }
  | 2 => some { reviews? := some (batchOf "c" 37), result? := none, total? := none }
  | _ => none

/-- A fetch sequence that always answers a full batch of 100 reviews. -/
def fullFetch : Nat → Option RawBody :=
  fun _ => some { reviews? := some (List.replicate 100 { external_id := "x" })
                  result? := none, total? := none }

/-- A full-batch answer at index `i` of a fetch sequence: the fetch succeeds
and exactly the page size of 100 reviews is extracted. -/
def FullBatchAt (f : Nat → Option RawBody) (i : Nat) : Prop :=
  ∃ b, f i = some b ∧ (extractReviews b).length = 100

/-- Per-variant responses where the calls for variants 1 and 2 fail (timeout
and server error) and variant 3 succeeds. -/
def draftOracle : Nat → ApiResp :=
  fun v => if v = 3 then .resp 200 ["Ок"] else if v = 2 then .resp 500 [] else .timeoutErr

theorem findByExternalId_eq_none_iff (db : List Review) (eid : String) :
    findByExternalId db eid = none ↔ countByExternalId db eid = 0 := by
  unfold findByExternalId countByExternalId
  induction db with
  | nil => simp
  | cons r rest ih =>
    by_cases h : (r.external_id == eid) = true
    · simp [List.find?_cons, h, List.countP_cons]
    · simp [List.find?_cons, h, List.countP_cons, ih]

theorem countByExternalId_append (db : List Review) (e eid : String) :
    countByExternalId (db ++ [⟨e⟩]) eid
      = countByExternalId db eid + (if e == eid then 1 else 0) := by
  unfold countByExternalId
  rw [List.countP_append]
  simp [List.countP_cons]

theorem process_new_review_preserves (db : List Review) (raw : RawReview)
    (hinv : ∀ eid, countByExternalId db eid ≤ 1) :
    ∀ eid, countByExternalId (process_new_review db raw).2 eid ≤ 1 := by
  intro eid
  unfold process_new_review
  rcases h : findByExternalId db raw.external_id with _ | r
  · simp only []
    rw [countByExternalId_append]
    by_cases he : (raw.external_id == eid) = true
    · have h0 : countByExternalId db raw.external_id = 0 :=
        (findByExternalId_eq_none_iff db raw.external_id).mp h
      have heq : raw.external_id = eid := by simpa using he
      rw [← heq, h0]
      simp
    · simp [he]
      exact hinv eid
  · simpa using hinv eid

theorem processAll_preserves (raws : List RawReview) :
    ∀ (db : List Review), (∀ eid, countByExternalId db eid ≤ 1) →
    ∀ eid, countByExternalId (processAll db raws) eid ≤ 1 := by
  induction raws with
  | nil => intro db hinv; simpa [processAll] using hinv
  | cons r rest ih =>
    intro db hinv
    exact ih _ (process_new_review_preserves db r hinv)

theorem process_new_review_dup (db : List Review) (raw : RawReview)
    (h : countByExternalId db raw.external_id ≠ 0) :
    process_new_review db raw = (false, db) := by
  rcases h2 : findByExternalId db raw.external_id with _ | r
  · exact absurd ((findByExternalId_eq_none_iff _ _).mp h2) h
  · unfold process_new_review
    rw [h2]

/-- C1: ingestion is idempotent per external review id. Processing a fresh
payload inserts exactly one Review under its external id and returns true; a
second call with the same external id finds the stored record, performs no
mutation and returns false; and over any further sequence of
`process_new_review` calls, storage keeps at most one Review per external id
provided it started that way. -/
theorem process_new_review_idempotent (db : List Review) (raw raw' : RawReview)
    (raws : List RawReview)
    (hsame : raw'.external_id = raw.external_id)
    (hfresh : countByExternalId db raw.external_id = 0)
    (hinv : ∀ eid, countByExternalId db eid ≤ 1) :
    (process_new_review db raw).1 = true ∧
    countByExternalId (process_new_review db raw).2 raw.external_id = 1 ∧
    process_new_review (process_new_review db raw).2 raw' =
      (false, (process_new_review db raw).2) ∧
    (∀ eid, countByExternalId (processAll db raws) eid ≤ 1) := by
  have hnone : findByExternalId db raw.external_id = none :=
    (findByExternalId_eq_none_iff db raw.external_id).mpr hfresh
  have hstep : process_new_review db raw
      = (true, db ++ [{ external_id := raw.external_id }]) := by
    unfold process_new_review
    rw [hnone]
  have hcount : countByExternalId (process_new_review db raw).2 raw.external_id = 1 := by
    rw [hstep]
    simp only []
    rw [countByExternalId_append, hfresh]
    simp
  have hpos : countByExternalId (process_new_review db raw).2 raw'.external_id ≠ 0 := by
    rw [hsame, hcount]
    omega
  exact ⟨by rw [hstep], hcount, process_new_review_dup _ raw' hpos,
    processAll_preserves raws db hinv⟩

/-- Witness for C1 at a concrete payload and empty storage. -/
theorem process_new_review_idempotent_witness :
    (process_new_review [] ⟨"r1"⟩).1 = true ∧
    countByExternalId (process_new_review [] ⟨"r1"⟩).2 "r1" = 1 ∧
    process_new_review (process_new_review [] ⟨"r1"⟩).2 ⟨"r1"⟩ =
      (false, (process_new_review [] ⟨"r1"⟩).2) := by
  have h := process_new_review_idempotent [] ⟨"r1"⟩ ⟨"r1"⟩ [⟨"a"⟩, ⟨"a"⟩, ⟨"b"⟩]
    rfl (by rfl) (fun eid => by simp [countByExternalId])
  exact ⟨h.1, h.2.1, h.2.2.1⟩

/-- C9: `set_model` updates the model and returns true exactly when the
argument is one of the three `AVAILABLE_MODELS`; otherwise the state is
unchanged and false is returned. The settings default model `yandexgpt-3`
is itself outside that list, so validity is enforced only on updates. -/
theorem set_model_enforces_model_list (s : YandexState) (m : String) :
    ((set_model s m).1 = true ↔ m ∈ AVAILABLE_MODELS) ∧
    (m ∈ AVAILABLE_MODELS →
      (set_model s m).2 = { s with model := m }) ∧
    (m ∉ AVAILABLE_MODELS →
      (set_model s m).2 = s ∧ (set_model s m).1 = false) ∧
    settingsYandexModel = "yandexgpt-3" ∧
    settingsYandexModel ∉ AVAILABLE_MODELS := by
  by_cases h : m ∈ AVAILABLE_MODELS
  · have hc : AVAILABLE_MODELS.contains m = true := List.elem_iff.mpr h
    refine ⟨by simp [set_model, hc, h], fun _ => by simp [set_model, hc, h],
      fun hn => absurd h hn, rfl, by decide⟩
  · have hc : AVAILABLE_MODELS.contains m = false := by
      rcases hb : AVAILABLE_MODELS.contains m with _ | _
      · rfl
      · exact absurd (List.elem_iff.mp hb) h
    refine ⟨by simp [set_model, hc, h], fun hy => absurd hy h,
      fun _ => by simp [set_model, hc, h], rfl, by decide⟩

/-- Witness for C9: a listed model is accepted, an unlisted one (the settings
default) leaves the instance unchanged. -/
theorem set_model_enforces_model_list_witness :
    (set_model ⟨"k", "f", "yandexgpt-3", false⟩ "yandexgpt-lite").1 = true ∧
    (set_model ⟨"k", "f", "yandexgpt-3", false⟩ "yandexgpt-3").2
      = ⟨"k", "f", "yandexgpt-3", false⟩ := by
  refine ⟨(set_model_enforces_model_list ⟨"k", "f", "yandexgpt-3", false⟩ "yandexgpt-lite").1.mpr
      (by decide),
    ((set_model_enforces_model_list ⟨"k", "f", "yandexgpt-3", false⟩ "yandexgpt-3").2.2.1
      (by decide)).1⟩

/-- C6 counterexample: a health check that observes a 429 reports
`quota_exceeded: true` in its result dictionary, yet leaves the instance's
sticky `quota_exceeded` flag at false — so not every operation that observes
a rate limit sets the flag. -/
theorem check_api_health_does_not_set_quota :
    (check_api_health healthProbeState (.resp 429)).1.quota_exceeded? = some true ∧
    (check_api_health healthProbeState (.resp 429)).1.status_code? = some 429 ∧
    (check_api_health healthProbeState (.resp 429)).2.1.quota_exceeded = false ∧
    healthProbeState.quota_exceeded = false := by
  refine ⟨rfl, rfl, rfl, rfl⟩

theorem check_api_health_state (s : YandexState) (o : HealthProbe) :
    (check_api_health s o).2.1 = s := by
  cases o <;> simp only [check_api_health] <;> split_ifs <;> rfl

/-- C6 amended: only the operations that go through `_call_api`
(`analyze_sentiment`, `categorize_review`, `generate_response_drafts`) set
the sticky `quota_exceeded` flag on observing a 429; `check_api_health`
never mutates the instance (it only reports the 429 in its result), and once
the flag is set, subsequent sentiment/category/draft calls short-circuit
without a network request. -/
theorem quota_429_set_only_via_call_api :
    (∀ (s : YandexState) (o : HealthProbe), (check_api_health s o).2.1 = s) ∧
    (∀ (s : YandexState) (p : String) (alts : List String),
      has_credentials s = true →
      (call_api s p (.resp 429 alts)).2.1.quota_exceeded = true) ∧
    (∀ (s : YandexState), s.quota_exceeded = true →
      (∀ t o, analyze_sentiment s t o = ("neutral", s, false)) ∧
      (∀ t o, categorize_review s t o = ("other", s, false)) ∧
      (∀ t n tone? sig? custom? oracle,
        generate_response_drafts s t n tone? sig? custom? oracle = ([], s, 0))) := by
  refine ⟨check_api_health_state, ?_, ?_⟩
  · intro s p alts h
    simp [call_api, h]
  · intro s hq
    exact ⟨fun t o => by simp [analyze_sentiment, hq],
      fun t o => by simp [categorize_review, hq],
      fun t n tone? sig? custom? oracle => by simp [generate_response_drafts, hq]⟩

/-- Witness for C6's amended statement at a concrete 429 observation. -/
theorem quota_429_set_only_via_call_api_witness :
    (check_api_health healthProbeState (.resp 429)).2.1 = healthProbeState ∧
    (call_api healthProbeState "ping" (.resp 429 [])).2.1.quota_exceeded = true ∧
    analyze_sentiment ⟨"key", "folder", "yandexgpt", true⟩ "txt" (.resp 200 ["ок"])
      = ("neutral", ⟨"key", "folder", "yandexgpt", true⟩, false) := by
  refine ⟨quota_429_set_only_via_call_api.1 healthProbeState (.resp 429),
    quota_429_set_only_via_call_api.2.1 healthProbeState "ping" [] (by decide),
    ((quota_429_set_only_via_call_api.2.2 ⟨"key", "folder", "yandexgpt", true⟩ rfl).1
      "txt" (.resp 200 ["ок"]))⟩

/-- C10: an HTTP 200 whose parsed body has neither a top-level reviews list
nor a nested `result` object with one is still returned as a success by the
fetch (normalization leaves it unchanged, no further candidate is tried),
and the ingestion loop then extracts an empty review list from it and ends
the cycle as end-of-data. -/
theorem success_with_shapeless_body (body : RawBody) (rest : List CandidateOutcome)
    (f : Nat → Option RawBody) (fuel idx total : Nat)
    (h1 : body.reviews? = none)
    (h2 : ∀ n, body.result? = some n → n.reviews? = none)
    (hf : f idx = some body) :
    normalizeBody body = body ∧
    getReviewsGo (.resp 200 body :: rest) = (some body, 1) ∧
    extractReviews body = [] ∧
    pollLoop f (fuel + 1) idx total = .finished total := by
  have hnorm : normalizeBody body = body := by
    rcases hr : body.result? with _ | n
    · simp [normalizeBody, h1, hr]
    · simp [normalizeBody, h1, hr, h2 n hr]
  have hextract : extractReviews body = [] := by
    rcases hr : body.result? with _ | n
    · simp [extractReviews, h1, hr]
    · simp [extractReviews, h1, hr, h2 n hr]
  refine ⟨hnorm, by simp [getReviewsGo, hnorm], hextract, ?_⟩
  simp [pollLoop, hf, hextract]

/-- Witness for C10 at a concrete shapeless body. -/
theorem success_with_shapeless_body_witness :
    normalizeBody ⟨none, none, some 7⟩ = ⟨none, none, some 7⟩ ∧
    getReviewsGo [.resp 200 ⟨none, none, some 7⟩] = (some ⟨none, none, some 7⟩, 1) ∧
    extractReviews ⟨none, none, some 7⟩ = [] ∧
    pollLoop (fun _ => some ⟨none, none, some 7⟩) 4 0 0 = .finished 0 := by
  have h := success_with_shapeless_body ⟨none, none, some 7⟩ []
    (fun _ => some ⟨none, none, some 7⟩) 3 0 0 rfl (fun n hn => by cases hn) rfl
  exact h

theorem call_api_quota (s : YandexState) (p : String) (o : ApiResp) :
    (call_api s p o).2.1.quota_exceeded
      = (s.quota_exceeded || (has_credentials s && is429 o)) := by
  by_cases hc : has_credentials s
  · rcases o with ⟨status, alts⟩ | _ | _
    · by_cases h200 : status = 200
      · subst h200
        cases alts <;> simp [call_api, is429, hc]
      · by_cases h429 : status = 429
        · subst h429
          simp [call_api, is429, hc]
        · simp [call_api, is429, hc, h200, h429]
    · simp [call_api, is429, hc]
    · simp [call_api, is429, hc]
  · simp only [Bool.not_eq_true] at hc
    simp [call_api, is429, hc]

theorem call_api_result (s : YandexState) (p : String) (o : ApiResp)
    (hc : has_credentials s = true) :
    (call_api s p o).1 = apiText o := by
  rcases o with ⟨status, alts⟩ | _ | _
  · by_cases h200 : status = 200
    · subst h200
      cases alts <;> simp [call_api, apiText, hc]
    · by_cases h429 : status = 429
      · subst h429
        simp [call_api, apiText, hc]
      · simp [call_api, apiText, hc, h200, h429]
  · simp [call_api, apiText, hc]
  · simp [call_api, apiText, hc]

theorem call_api_creds (s : YandexState) (p : String) (o : ApiResp) :
    has_credentials (call_api s p o).2.1 = has_credentials s := by
  by_cases hc : has_credentials s
  · rcases o with ⟨status, alts⟩ | _ | _
    · by_cases h200 : status = 200
      · subst h200
        cases alts <;> simp [call_api, hc]
      · by_cases h429 : status = 429
        · subst h429
          simp [call_api, hc]
          simp [has_credentials] at hc ⊢
          exact hc
        · simp [call_api, hc, h200, h429]
    · simp [call_api, hc]
    · simp [call_api, hc]
  · simp only [Bool.not_eq_true] at hc
    simp [call_api, hc]

theorem analyze_sentiment_quota (s : YandexState) (t : String) (o : ApiResp)
    (hq : s.quota_exceeded = false) :
    (analyze_sentiment s t o).2.1.quota_exceeded = (has_credentials s && is429 o) := by
  by_cases hc : has_credentials s
  · have hcq := call_api_quota s (sentimentPrompt t) o
    rcases hcall : call_api s (sentimentPrompt t) o with ⟨r, s', n⟩
    rw [hcall] at hcq
    simp [analyze_sentiment, hq, hc, hcall]
    simp at hcq
    rw [hcq, hq]
    simp [hc]
  · simp only [Bool.not_eq_true] at hc
    simp [analyze_sentiment, hq, hc]

theorem categorize_review_quota (s : YandexState) (t : String) (o : ApiResp)
    (hq : s.quota_exceeded = false) :
    (categorize_review s t o).2.1.quota_exceeded = (has_credentials s && is429 o) := by
  by_cases hc : has_credentials s
  · have hcq := call_api_quota s (categoryPrompt t) o
    rcases hcall : call_api s (categoryPrompt t) o with ⟨r, s', n⟩
    rw [hcall] at hcq
    simp [categorize_review, hq, hc, hcall]
    simp at hcq
    rw [hcq, hq]
    simp [hc]
  · simp only [Bool.not_eq_true] at hc
    simp [categorize_review, hq, hc]

theorem draftsGo_list (oracle : Nat → ApiResp) (custom? : Option String)
    (rt tone sig : String) :
    ∀ (n v : Nat) (s : YandexState), has_credentials s = true →
    (draftsGo oracle custom? rt tone sig v n s).1
      = (List.range n).map (fun i => draftOf sig (oracle (v + i))) := by
  intro n
  induction n with
  | zero => intro v s hc; simp [draftsGo]
  | succ m ih =>
    intro v s hc
    have hres := call_api_result s (draftPrompt custom? rt tone sig v) (oracle v) hc
    have hcreds := call_api_creds s (draftPrompt custom? rt tone sig v) (oracle v)
    rcases hcall : call_api s (draftPrompt custom? rt tone sig v) (oracle v) with ⟨r, s', net⟩
    rw [hcall] at hres hcreds
    simp at hres hcreds
    rw [hc] at hcreds
    simp only [draftsGo, hcall]
    rcases hgo : draftsGo oracle custom? rt tone sig (v + 1) m s' with ⟨rest, s'', nn⟩
    have ihv := ih (v + 1) s' hcreds
    rw [hgo] at ihv
    simp at ihv
    simp [List.range_succ_eq_map]
    constructor
    · rw [hres]
      simp [draftOf]
    · rw [ihv]
      apply List.map_congr_left
      intro i hi
      simp only [Function.comp]
      have h : v + Nat.succ i = v + 1 + i := by omega
      rw [h]

theorem draftsGo_quota_imp (oracle : Nat → ApiResp) (custom? : Option String)
    (rt tone sig : String) :
    ∀ (n v : Nat) (s : YandexState),
    (draftsGo oracle custom? rt tone sig v n s).2.1.quota_exceeded = true →
    s.quota_exceeded = true ∨ ∃ i, is429 (oracle i) = true := by
  intro n
  induction n with
  | zero =>
    intro v s h
    simp [draftsGo] at h
    exact Or.inl h
  | succ m ih =>
    intro v s h
    have hq := call_api_quota s (draftPrompt custom? rt tone sig v) (oracle v)
    rcases hcall : call_api s (draftPrompt custom? rt tone sig v) (oracle v) with ⟨r, s', net⟩
    rw [hcall] at hq
    simp at hq
    simp only [draftsGo, hcall] at h
    rcases hgo : draftsGo oracle custom? rt tone sig (v + 1) m s' with ⟨rest, s'', nn⟩
    rw [hgo] at h
    simp at h
    have hs : (draftsGo oracle custom? rt tone sig (v + 1) m s').2.1.quota_exceeded = true := by
      rw [hgo]
      exact h
    rcases ih (v + 1) s' hs with h1 | h2
    · rw [h1] at hq
      rcases hqq : s.quota_exceeded with _ | _
      · rw [hqq] at hq
        simp at hq
        exact Or.inr ⟨v, hq.2⟩
      · exact Or.inl rfl
    · exact Or.inr h2

/-- C3: the quota breaker is sticky and short-circuiting. The flag starts
false at construction; `_call_api` sets it exactly on a credentialled 429
(and never clears it); `set_model` and `check_api_health` leave it
untouched; once true, `analyze_sentiment`, `categorize_review` and
`generate_response_drafts` return `neutral`/`other`/`[]` respectively with
the state unchanged and no network request; and starting from a clear flag,
the flag after any sentiment/category/draft call is set only when a 429 was
observed. -/
theorem quota_breaker_lifecycle :
    (∀ a? f? m?, (mkYandexService a? f? m?).quota_exceeded = false) ∧
    (∀ (s : YandexState) (p : String) (o : ApiResp),
      (call_api s p o).2.1.quota_exceeded
        = (s.quota_exceeded || (has_credentials s && is429 o))) ∧
    (∀ (s : YandexState) (m : String),
      (set_model s m).2.quota_exceeded = s.quota_exceeded) ∧
    (∀ (s : YandexState) (o : HealthProbe),
      (check_api_health s o).2.1.quota_exceeded = s.quota_exceeded) ∧
    (∀ (s : YandexState) (t : String) (o : ApiResp), s.quota_exceeded = true →
      analyze_sentiment s t o = ("neutral", s, false) ∧
      categorize_review s t o = ("other", s, false)) ∧
    (∀ (s : YandexState) (t : String) (n : Nat) (tone? sig? custom? : Option String)
      (oracle : Nat → ApiResp), s.quota_exceeded = true →
      generate_response_drafts s t n tone? sig? custom? oracle = ([], s, 0)) ∧
    (∀ (s : YandexState) (t : String) (o : ApiResp), s.quota_exceeded = false →
      (analyze_sentiment s t o).2.1.quota_exceeded = (has_credentials s && is429 o) ∧
      (categorize_review s t o).2.1.quota_exceeded = (has_credentials s && is429 o)) ∧
    (∀ (s : YandexState) (t : String) (n : Nat) (tone? sig? custom? : Option String)
      (oracle : Nat → ApiResp),
      (generate_response_drafts s t n tone? sig? custom? oracle).2.1.quota_exceeded = true →
      s.quota_exceeded = true ∨ ∃ i, is429 (oracle i) = true) := by
  refine ⟨fun a? f? m? => rfl, call_api_quota, ?_, ?_, ?_, ?_, ?_, ?_⟩
  · intro s m
    by_cases h : m ∈ AVAILABLE_MODELS <;> simp [set_model, h]
  · intro s o
    rw [check_api_health_state]
  · intro s t o hq
    exact ⟨by simp [analyze_sentiment, hq], by simp [categorize_review, hq]⟩
  · intro s t n tone? sig? custom? oracle hq
    simp [generate_response_drafts, hq]
  · intro s t o hq
    exact ⟨analyze_sentiment_quota s t o hq, categorize_review_quota s t o hq⟩
  · intro s t n tone? sig? custom? oracle h
    by_cases hq : s.quota_exceeded
    · exact Or.inl hq
    · by_cases hc : has_credentials s
      · rw [generate_response_drafts] at h
        simp only [hq, hc] at h
        simp at h
        exact draftsGo_quota_imp oracle custom? t
          (pyOrStr tone? settingsResponseTone) (pyOrStr sig? settingsResponseSignature)
          n 1 s h
      · simp only [Bool.not_eq_true] at hq hc
        rw [generate_response_drafts] at h
        simp [hq, hc] at h

/-- Witness for C3 at concrete states: a 429 flips the flag; once set, the
sentiment call short-circuits. -/
theorem quota_breaker_lifecycle_witness :
    (mkYandexService none none none).quota_exceeded = false ∧
    (call_api healthProbeState "p" (.resp 429 [])).2.1.quota_exceeded = true ∧
    analyze_sentiment ⟨"k", "f", "yandexgpt", true⟩ "т" (.resp 200 ["x"])
      = ("neutral", ⟨"k", "f", "yandexgpt", true⟩, false) := by
  refine ⟨quota_breaker_lifecycle.1 none none none, ?_, ?_⟩
  · rw [quota_breaker_lifecycle.2.1 healthProbeState "p" (.resp 429 [])]
    decide
  · exact (quota_breaker_lifecycle.2.2.2.2.1 ⟨"k", "f", "yandexgpt", true⟩ "т"
      (.resp 200 ["x"]) rfl).1

/-- C4: `generate_response_drafts` returns the empty sequence when the quota
is exceeded or credentials are absent; otherwise it returns exactly
`num_variants` strings, where the draft for each variant is the reply text
of its API call when truthy and the fixed fallback string built from the
signature otherwise. -/
theorem generate_response_drafts_count (s : YandexState) (t : String) (n : Nat)
    (tone? sig? custom? : Option String) (oracle : Nat → ApiResp) :
    (s.quota_exceeded = true ∨ has_credentials s = false →
      generate_response_drafts s t n tone? sig? custom? oracle = ([], s, 0)) ∧
    (s.quota_exceeded = false → has_credentials s = true →
      (generate_response_drafts s t n tone? sig? custom? oracle).1
        = (List.range n).map
            (fun i => draftOf (pyOrStr sig? settingsResponseSignature) (oracle (1 + i))) ∧
      (generate_response_drafts s t n tone? sig? custom? oracle).1.length = n) := by
  constructor
  · intro h
    rcases h with hq | hc
    · simp [generate_response_drafts, hq]
    · simp [generate_response_drafts, hc]
  · intro hq hc
    have hlist := draftsGo_list oracle custom? t
      (pyOrStr tone? settingsResponseTone) (pyOrStr sig? settingsResponseSignature) n 1 s hc
    have hgen : (generate_response_drafts s t n tone? sig? custom? oracle).1
        = (draftsGo oracle custom? t (pyOrStr tone? settingsResponseTone)
            (pyOrStr sig? settingsResponseSignature) 1 n s).1 := by
      simp [generate_response_drafts, hq, hc]
    constructor
    · rw [hgen, hlist]
    · rw [hgen, hlist]
      simp

/-- Witness for C4: three variants with two failing calls still give three
drafts. -/
theorem generate_response_drafts_count_witness :
    (generate_response_drafts ⟨"k", "f", "yandexgpt", false⟩ "отзыв" 3 none none none
        draftOracle).1.length = 3 ∧
    (generate_response_drafts ⟨"k", "f", "yandexgpt", false⟩ "отзыв" 3 none none none
        draftOracle).1
      = [fallbackDraft settingsResponseSignature,
         fallbackDraft settingsResponseSignature, "Ок"] := by
  have h := (generate_response_drafts_count ⟨"k", "f", "yandexgpt", false⟩ "отзыв" 3
    none none none draftOracle).2 rfl rfl
  refine ⟨h.2, ?_⟩
  rw [h.1]
  decide

theorem getReviewsGo_skip (c : CandidateOutcome) (h : Skippable c)
    (rest : List CandidateOutcome) :
    getReviewsGo (c :: rest) = ((getReviewsGo rest).1, (getReviewsGo rest).2 + 1) := by
  rcases hg : getReviewsGo rest with ⟨r, n⟩
  rcases c with ⟨status, body⟩ | _
  · simp only [Skippable] at h
    rcases h with h404 | h500
    · subst h404
      simp [getReviewsGo, hg]
    · have h1 : ¬ status = 200 := by omega
      have h2 : ¬ status = 404 := by omega
      have h3 : ¬ status < 500 := by omega
      simp [getReviewsGo, hg, h1, h2, h3]
  · simp [getReviewsGo, hg]

theorem getReviewsGo_skips (pre : List CandidateOutcome)
    (h : ∀ c ∈ pre, Skippable c) (rest : List CandidateOutcome) :
    getReviewsGo (pre ++ rest)
      = ((getReviewsGo rest).1, pre.length + (getReviewsGo rest).2) := by
  induction pre with
  | nil => simp
  | cons c cs ih =>
    have hc : Skippable c := h c (by simp)
    have hcs : ∀ x ∈ cs, Skippable x := fun x hx => h x (by simp [hx])
    rw [List.cons_append, getReviewsGo_skip c hc (cs ++ rest), ih hcs]
    simp [Prod.ext_iff]
    omega

/-- C2: the fetch endpoint loop tries candidates in rank order. Past any
prefix of skippable candidates (404, server error, transport exception), a
200 stops the loop and returns the normalized batch without touching later
candidates; an HTTP status in [400,500) other than 404 aborts the whole call
with failure without touching later candidates; and exhausting an
all-skippable candidate list returns failure after trying every one. -/
theorem get_reviews_fallback_policy (pre rest : List CandidateOutcome)
    (body : RawBody) (c : CandidateOutcome)
    (hpre : ∀ x ∈ pre, Skippable x) :
    getReviewsGo (pre ++ .resp 200 body :: rest)
      = (some (normalizeBody body), pre.length + 1) ∧
    (Aborting c → getReviewsGo (pre ++ c :: rest) = (none, pre.length + 1)) ∧
    getReviewsGo pre = (none, pre.length) := by
  refine ⟨?_, ?_, ?_⟩
  · rw [getReviewsGo_skips pre hpre]
    simp [getReviewsGo]
  · intro hab
    rcases c with ⟨status, b⟩ | _
    · simp only [Aborting] at hab
      obtain ⟨h400, h500, h404⟩ := hab
      have hcr : getReviewsGo (CandidateOutcome.resp status b :: rest) = (none, 1) := by
        have h1 : ¬ status = 200 := by omega
        simp [getReviewsGo, h1, h404, h500]
      rw [getReviewsGo_skips pre hpre, hcr]
    · simp only [Aborting] at hab
  · have h := getReviewsGo_skips pre hpre []
    simpa using h

/-- Witness for C2: skippable prefixes before a 200, before a 403, and a
fully skippable list, at concrete candidates. -/
theorem get_reviews_fallback_policy_witness :
    getReviewsGo ([.resp 404 ⟨none, none, none⟩, .resp 500 ⟨none, none, none⟩, .exnRaised]
        ++ .resp 200 ⟨some (batchOf "w" 2), none, none⟩ :: [.resp 200 ⟨none, none, none⟩])
      = (some (normalizeBody ⟨some (batchOf "w" 2), none, none⟩), 3 + 1) ∧
    getReviewsGo ([.resp 404 ⟨none, none, none⟩]
        ++ .resp 403 ⟨none, none, none⟩ :: [.resp 200 ⟨none, none, none⟩])
      = (none, 1 + 1) ∧
    getReviewsGo [.resp 404 ⟨none, none, none⟩, .exnRaised, .resp 503 ⟨none, none, none⟩]
      = (none, 3) := by
  refine ⟨(get_reviews_fallback_policy
      [.resp 404 ⟨none, none, none⟩, .resp 500 ⟨none, none, none⟩, .exnRaised]
      [.resp 200 ⟨none, none, none⟩] ⟨some (batchOf "w" 2), none, none⟩ .exnRaised
      (by decide)).1, ?_, ?_⟩
  · exact (get_reviews_fallback_policy [.resp 404 ⟨none, none, none⟩]
      [.resp 200 ⟨none, none, none⟩] ⟨none, none, none⟩ (.resp 403 ⟨none, none, none⟩)
      (by decide)).2.1 (by simp [Aborting])
  · exact (get_reviews_fallback_policy
      [.resp 404 ⟨none, none, none⟩, .exnRaised, .resp 503 ⟨none, none, none⟩]
      [] ⟨none, none, none⟩ .exnRaised (by decide)).2.2

theorem pollLoop_fullFetch :
    ∀ (fuel idx total : Nat),
    pollLoop fullFetch fuel idx total = .outOfFuel (total + 100 * fuel) := by
  intro fuel
  induction fuel with
  | zero => intro idx total; simp [pollLoop]
  | succ m ih =>
    intro idx total
    rw [show pollLoop fullFetch (m + 1) idx total
        = pollLoop fullFetch m (idx + 1) (total + 100) from rfl, ih]
    congr 1
    omega

/-- C7 counterexample: the scheduled poller's fetch leaves `days_back` at its
default of 30, so a 30-day lower bound IS added to the request filter
(contradicting "no daysBack restriction"), and the poll loop has no batch
cap: on perpetually full batches it is still running after 20 batches with
2000 reviews counted. -/
theorem poll_tick_counterexample :
    pollDaysBack = 30 ∧
    (buildFilter 1735689600 pollDaysBack).date_from? = some 1733097600 ∧
    (buildFilter 1735689600 pollDaysBack).date_from? ≠ none ∧
    pollLoop fullFetch 20 0 0 = .outOfFuel 2000 := by
  refine ⟨rfl, by decide, by decide, by decide⟩

/-- C7 amended: each scheduled tick runs the pagination loop with NO cap on
the number of batches — it stops only on a failed fetch, an empty batch or a
short batch, and with perpetually full batches it never finishes — and its
fetches apply the default 30-day `days_back` window, adding a creation-time
lower bound of 30 days (2592000 seconds) to the request filter. -/
theorem poll_loop_uncapped_and_date_filtered :
    (∀ fuel idx total, pollLoop fullFetch fuel idx total = .outOfFuel (total + 100 * fuel)) ∧
    pollDaysBack = 30 ∧
    (∀ now, (buildFilter now pollDaysBack).date_from? = some (now - 2592000)) ∧
    (∀ (f : Nat → Option RawBody) fuel idx total, f idx = none →
      pollLoop f (fuel + 1) idx total = .finished total) ∧
    (∀ (f : Nat → Option RawBody) fuel idx total b, f idx = some b →
      extractReviews b = [] → pollLoop f (fuel + 1) idx total = .finished total) ∧
    (∀ (f : Nat → Option RawBody) fuel idx total b, f idx = some b →
      0 < (extractReviews b).length → (extractReviews b).length < 100 →
      pollLoop f (fuel + 1) idx total = .finished (total + (extractReviews b).length)) := by
  refine ⟨pollLoop_fullFetch, rfl, ?_, ?_, ?_, ?_⟩
  · intro now
    simp [buildFilter, pollDaysBack]
  · intro f fuel idx total h
    simp [pollLoop, h]
  · intro f fuel idx total b hb hE
    simp [pollLoop, hb, hE]
  · intro f fuel idx total b hb h0 h100
    have hne : (extractReviews b).isEmpty = false := by
      rcases hE : extractReviews b with _ | ⟨x, xs⟩
      · rw [hE] at h0; simp at h0
      · rfl
    simp [pollLoop, hb, hne, h100]

/-- Witness for C7's amended statement at concrete fetch sequences. -/
theorem poll_loop_uncapped_witness :
    pollLoop fullFetch 5 0 0 = .outOfFuel 500 ∧
    (buildFilter 1000000000 pollDaysBack).date_from? = some 997408000 ∧
    pollLoop (fun _ => none) 3 0 7 = .finished 7 := by
  refine ⟨?_, ?_, ?_⟩
  · have h := poll_loop_uncapped_and_date_filtered.1 5 0 0
    simpa using h
  · have h := poll_loop_uncapped_and_date_filtered.2.2.1 1000000000
    rw [h]
  · exact poll_loop_uncapped_and_date_filtered.2.2.2.1 (fun _ => none) 2 0 7 rfl

theorem syncLoop_step_full (f : Nat → Option RawBody) (fuel idx : Nat)
    (totals : SyncTotals) (db : List Review) (b : RawBody)
    (hb : f idx = some b) (hlen : (extractReviews b).length = 100) :
    syncLoop f (fuel + 1) idx totals db
      = syncLoop f fuel (idx + 1)
          ⟨totals.fetched + 100, totals.saved + (processBatch db (extractReviews b)).1⟩
          (processBatch db (extractReviews b)).2 := by
  have hne : (extractReviews b).isEmpty = false := by
    rcases hE : extractReviews b with _ | ⟨x, xs⟩
    · rw [hE] at hlen
      simp at hlen
    · rfl
  rcases hpb : processBatch db (extractReviews b) with ⟨ns, db'⟩
  simp [syncLoop, hb, hne, hlen, hpb]

theorem syncLoop_full_prefix (f : Nat → Option RawBody) :
    ∀ (j fuel idx : Nat) (totals : SyncTotals) (db : List Review),
    j ≤ fuel → (∀ i, i < j → FullBatchAt f (idx + i)) →
    ∃ db' extra, syncLoop f fuel idx totals db
      = syncLoop f (fuel - j) (idx + j)
          ⟨totals.fetched + 100 * j, totals.saved + extra⟩ db' := by
  intro j
  induction j with
  | zero =>
    intro fuel idx totals db hle hfull
    exact ⟨db, 0, rfl⟩
  | succ m ih =>
    intro fuel idx totals db hle hfull
    obtain ⟨b, hb, hlen⟩ := hfull 0 (Nat.succ_pos m)
    rcases fuel with _ | fu
    · omega
    have hstep := syncLoop_step_full f fu idx totals db b hb hlen
    obtain ⟨db', extra, hrest⟩ := ih fu (idx + 1)
      ⟨totals.fetched + 100, totals.saved + (processBatch db (extractReviews b)).1⟩
      (processBatch db (extractReviews b)).2
      (by omega)
      (fun i hi => by
        have harr : idx + (i + 1) = idx + 1 + i := by omega
        have hh := hfull (i + 1) (by omega)
        rw [harr] at hh
        exact hh)
    refine ⟨db', (processBatch db (extractReviews b)).1 + extra, ?_⟩
    have e1 : fu + 1 - (m + 1) = fu - m := by omega
    have e2 : idx + (m + 1) = idx + 1 + m := by omega
    have e3 : totals.fetched + 100 * (m + 1) = totals.fetched + 100 + 100 * m := by ring
    have e4 : totals.saved + ((processBatch db (extractReviews b)).1 + extra)
        = totals.saved + (processBatch db (extractReviews b)).1 + extra := by omega
    rw [hstep, hrest, e1, e2, e3, e4]

/-- C5: the manual-sync ingestion cycle stops exactly on its stated stop
conditions and counts fetched reviews correctly: past `j` full batches
(j < 10) a failed fetch or an empty batch ends the cycle with
`fetched = 100 * j`, a short batch of length L ends it with
`fetched = 100 * j + L`, ten full batches end it at the iteration cap with
`fetched = 1000`, and the concrete sequence of batches 100, 100, 37 ends
after the third batch with `fetched = 237`. -/
theorem sync_reviews_termination (f : Nat → Option RawBody) (db : List Review)
    (j : Nat) (hj : j < 10) (hfull : ∀ i, i < j → FullBatchAt f i) :
    (f j = none → (sync_reviews f db).1.fetched = 100 * j) ∧
    (∀ b, f j = some b → extractReviews b = [] →
      (sync_reviews f db).1.fetched = 100 * j) ∧
    (∀ b, f j = some b → 0 < (extractReviews b).length →
      (extractReviews b).length < 100 →
      (sync_reviews f db).1.fetched = 100 * j + (extractReviews b).length) ∧
    ((∀ i, i < 10 → FullBatchAt f i) → (sync_reviews f db).1.fetched = 1000) ∧
    (sync_reviews f237 []).1 = ⟨237, 237⟩ := by
  obtain ⟨db', extra, hpre⟩ := syncLoop_full_prefix f j 10 0 ⟨0, 0⟩ db (by omega)
    (fun i hi => by
      rw [Nat.zero_add]
      exact hfull i hi)
  simp only [Nat.zero_add] at hpre
  obtain ⟨k, hk⟩ : ∃ k, 10 - j = k + 1 := ⟨10 - j - 1, by omega⟩
  rw [hk] at hpre
  refine ⟨?_, ?_, ?_, ?_, by decide⟩
  · intro hfj
    have hend : syncLoop f (k + 1) j ⟨100 * j, extra⟩ db' = (⟨100 * j, extra⟩, db') := by
      simp [syncLoop, hfj]
    unfold sync_reviews
    rw [hpre, hend]
  · intro b hb hE
    have hend : syncLoop f (k + 1) j ⟨100 * j, extra⟩ db' = (⟨100 * j, extra⟩, db') := by
      simp [syncLoop, hb, hE]
    unfold sync_reviews
    rw [hpre, hend]
  · intro b hb h0 h100
    have hne : (extractReviews b).isEmpty = false := by
      rcases hE : extractReviews b with _ | ⟨x, xs⟩
      · rw [hE] at h0
        simp at h0
      · rfl
    rcases hpb : processBatch db' (extractReviews b) with ⟨ns, db''⟩
    have hend : syncLoop f (k + 1) j ⟨100 * j, extra⟩ db'
        = (⟨100 * j + (extractReviews b).length, extra + ns⟩, db'') := by
      simp [syncLoop, hb, hne, hpb, h100]
    unfold sync_reviews
    rw [hpre, hend]
  · intro hfull10
    obtain ⟨db2, ex2, hp10⟩ := syncLoop_full_prefix f 10 10 0 ⟨0, 0⟩ db (by omega)
      (fun i hi => by
        rw [Nat.zero_add]
        exact hfull10 i hi)
    simp only [Nat.zero_add] at hp10
    have h10 : (10 : Nat) - 10 = 0 := by omega
    rw [h10] at hp10
    have hend : syncLoop f 0 10 ⟨100 * 10, ex2⟩ db2 = (⟨100 * 10, ex2⟩, db2) := by
      simp [syncLoop]
    unfold sync_reviews
    rw [hp10, hend]

/-- Witness for C5: the batches 100, 100, 37 scenario discharged through the
theorem (j = 2 full batches, then a short batch of 37). -/
theorem sync_reviews_termination_witness :
    (sync_reviews f237 []).1.fetched
      = 100 * 2 + (extractReviews ⟨some (batchOf "c" 37), none, none⟩).length ∧
    (sync_reviews f237 []).1 = ⟨237, 237⟩ := by
  have h := sync_reviews_termination f237 [] 2 (by omega)
    (fun i hi => by
      interval_cases i
      · exact ⟨⟨some (batchOf "a" 100), none, none⟩, rfl, by decide⟩
      · exact ⟨⟨some (batchOf "b" 100), none, none⟩, rfl, by decide⟩)
  exact ⟨h.2.2.1 ⟨some (batchOf "c" 37), none, none⟩ rfl (by decide) (by decide), h.2.2.2.2⟩

/-- C8: the scheduled polling cycle never propagates an exception to the
scheduler. Whatever the outcomes of credential validation, fetching, parsing
and per-review processing (including any raised exception), whenever
`poll_reviews` returns it returns a normal outcome — never a propagated
exception — and the storage session it opened has been closed (only the
credential early-return opens no session). -/
theorem poll_reviews_never_propagates (credsValid : Bool)
    (fetch : Nat → Except String (Option RawBody))
    (process : Nat → Except String Bool) (fuel : Nat)
    (r : PollOutcome) (closed : Bool)
    (h : poll_reviews_run credsValid fetch process fuel = some (r, closed)) :
    (∀ e, r ≠ PollOutcome.propagated e) ∧
    (r = PollOutcome.noCreds ∨ closed = true) := by
  unfold poll_reviews_run at h
  by_cases hc : credsValid = true
  · rw [if_pos hc] at h
    rcases hb : pollTryBody fetch process fuel 0 0 none with _ | res
    · rw [hb] at h
      simp at h
    · rw [hb] at h
      rcases res with e | lastLen
      · simp at h
        obtain ⟨h1, h2⟩ := h
        subst h1
        subst h2
        exact ⟨fun e' => by simp, Or.inr rfl⟩
      · rcases lastLen with _ | len
        · simp at h
          obtain ⟨h1, h2⟩ := h
          subst h1
          subst h2
          exact ⟨fun e' => by simp, Or.inr rfl⟩
        · simp at h
          obtain ⟨h1, h2⟩ := h
          subst h1
          subst h2
          exact ⟨fun e' => by simp, Or.inr rfl⟩
  · rw [if_neg hc] at h
    simp at h
    obtain ⟨h1, h2⟩ := h
    subst h1
    subst h2
    exact ⟨fun e' => by simp, Or.inl rfl⟩

/-- Witness for C8: a cycle whose first per-review processing call raises is
caught, leaves the session closed, and returns normally. -/
theorem poll_reviews_never_propagates_witness :
    PollOutcome.caught "boom" ≠ PollOutcome.propagated "x" ∧
    (PollOutcome.caught "boom" = PollOutcome.noCreds ∨ true = true) := by
  have h := poll_reviews_never_propagates true
    (fun _ => .ok (some ⟨some (batchOf "w" 2), none, none⟩))
    (fun _ => .error "boom") 5 (.caught "boom") true (by decide)
  exact ⟨h.1 "x", h.2⟩
